import Mathlib

/-!
Shallow embedding of the Ironwood viewport-triggered animation engine:
`src/assets/js/counter-animation.js` (Counter Engine) and
`src/assets/js/scroll-reveal.js` (Reveal Engine).

Modelling conventions:
* JS numbers are modelled as exact rationals (`Rat`); every concrete value
  appearing in the claims (1234, 5/2, 3/4, ...) is exactly representable in
  IEEE-754 double, so no rounding behaviour is lost.
* DOM elements are opaque identities, modelled as `Nat` ids; per-element
  inline style state is abstracted to the phase the engine has driven it to
  (authored / initial style-set / animate style-set), which is all the
  claims talk about.
* `parseInt`/`parseFloat`/`||`-defaulting and string handling are modelled
  operationally from the JS semantics actually exercised by the code.
* The asynchronous parts (IntersectionObserver batches, `setTimeout`
  reveals) become an explicit event alphabet and a step function on the
  engine state, so temporal claims are statements about event traces.
-/

/-! ## JS primitive helpers -/

/-- Digit list to a natural number (most-significant first). -/
def digitsToNat (l : List Char) : Nat :=
  l.foldl (fun a c => 10 * a + (c.toNat - '0'.toNat)) 0

/-- JS `parseFloat` restricted to strings of digits and dots (the only
inputs it receives in `parseValue`, whose argument is pre-filtered to
`[0-9.]`): parse an optional integer part, an optional single dot, an
optional fraction part, ignore the rest; `none` models NaN (no digits
consumed). -/
def jsParseFloat (s : String) : Option Rat :=
  let l := s.toList
  let ip := l.takeWhile Char.isDigit
  let r1 := l.dropWhile Char.isDigit
  let fp := match r1 with
    | '.' :: r2 => r2.takeWhile Char.isDigit
    | _ => []
  if ip.isEmpty && fp.isEmpty then none
  else some ((digitsToNat ip : Rat) + (digitsToNat fp : Rat) / (10 : Rat) ^ fp.length)

/-- JS `parseInt` on an optional string (`undefined` gives NaN): optional
sign, then leading decimal digits; `none` models NaN. -/
def jsParseInt (s : Option String) : Option Int :=
  match s with
  | none => none
  | some str =>
    let l := str.toList
    let (neg, rest) := match l with
      | '-' :: r => (true, r)
      | '+' :: r => (false, r)
      | r => (false, r)
    let ds := rest.takeWhile Char.isDigit
    if ds.isEmpty then none
    else some (if neg then -(digitsToNat ds : Int) else (digitsToNat ds : Int))

/-- JS `x || d` on the result of a numeric parse: NaN (`none`) and `0` are
falsy and give the default. -/
def jsOrNum (v : Option Int) (d : Int) : Int :=
  match v with
  | none => d
  | some n => if n = 0 then d else n

/-- Insert `','` every three digits, the digit list given least-significant
first. -/
def groupRev : List Char → List Char
  | a :: b :: c :: d :: rest => a :: b :: c :: ',' :: groupRev (d :: rest)
  | l => l
termination_by l => l.length

/-- JS `Number.prototype.toLocaleString('en-US')` on an integer:
thousands grouping with commas. -/
def toLocaleStringEnUS (n : Int) : String :=
  let digits := (toString n.natAbs).toList
  let grouped := (groupRev digits.reverse).reverse
  if n < 0 then "-" ++ String.mk grouped else String.mk grouped

/-! ## Counter Engine (`counter-animation.js`) -/

/-- Easing table entry `linear: t => t`. -/
def linearEase (t : Rat) : Rat := t

/-- Easing table entry `easeInQuad: t => t * t`. -/
def easeInQuad (t : Rat) : Rat := t * t

/-- Easing table entry `easeOutQuad: t => t * (2 - t)`. -/
def easeOutQuad (t : Rat) : Rat := t * (2 - t)

/-- Easing table entry
`easeInOutQuad: t => t < 0.5 ? 2 * t * t : -1 + (4 - 2 * t) * t`. -/
def easeInOutQuad (t : Rat) : Rat :=
  if t < 1/2 then 2 * t * t else -1 + (4 - 2 * t) * t

/-- Easing table entry `easeInCubic: t => t * t * t`. -/
def easeInCubic (t : Rat) : Rat := t * t * t

/-- Easing table entry `easeOutCubic: t => (--t) * t * t + 1` (the
pre-decrement makes every `t` read as `t - 1`). -/
def easeOutCubic (t : Rat) : Rat := (t - 1) * (t - 1) * (t - 1) + 1

/-- Easing table entry
`easeInOutCubic: t => t < 0.5 ? 4 * t³ : (t-1)(2t-2)² + 1`. -/
def easeInOutCubic (t : Rat) : Rat :=
  if t < 1/2 then 4 * t * t * t else (t - 1) * (2 * t - 2) * (2 * t - 2) + 1

/-- The `easingFunctions` object, as a name-keyed table. -/
def easingFunctions : List (String × (Rat → Rat)) :=
  [("linear", linearEase),
   ("easeInQuad", easeInQuad),
   ("easeOutQuad", easeOutQuad),
   ("easeInOutQuad", easeInOutQuad),
   ("easeInCubic", easeInCubic),
   ("easeOutCubic", easeOutCubic),
   ("easeInOutCubic", easeInOutCubic)]

/-- `easingFunctions[name] || easingFunctions.easeOutQuad` (animate, line
104). -/
def easingLookup (name : String) : Rat → Rat :=
  (easingFunctions.lookup name).getD easeOutQuad

/-- Counter `CONFIG` / constructor options. -/
structure CounterOptions where
  duration : Rat := 2000
  easingFunction : String := "easeOutQuad"
  observerThreshold : Rat := 3/10
  deriving Repr, DecidableEq

/-- `CounterAnimation.parseValue`: strip every character outside `[0-9.]`,
`parseFloat`, and default NaN (and 0) to 0 via `|| 0`. -/
def parseValue (str : String) : Rat :=
  let cleaned := String.mk (str.toList.filter (fun c => c.isDigit || c = '.'))
  match jsParseFloat cleaned with
  | none => 0
  | some v => v

/-- `CounterAnimation.extractSuffix`: the maximal trailing run of ASCII
letters (`/[A-Za-z]+$/`), or `""` when the string ends in a non-letter. -/
def extractSuffix (str : String) : String :=
  String.mk ((str.toList.reverse.takeWhile Char.isAlpha).reverse)

/-- `CounterAnimation.formatNumber`: `Math.floor` then en-US locale
grouping. -/
def formatNumber (num : Rat) : String :=
  toLocaleStringEnUS num.floor

/-- The per-counter state fixed at construction time
(`CounterAnimation` constructor, lines 49-66): target value, plus
adornment, suffix — all read once from the element's initial text. -/
structure CounterTarget where
  targetValue : Rat
  hasPlus : Bool
  suffix : String
  deriving Repr, DecidableEq

/-- `CounterAnimation` constructor on the element's initial text content. -/
def mkCounterAnimation (text : String) : CounterTarget :=
  { targetValue := parseValue text
    hasPlus := text.contains '+'
    suffix := extractSuffix text }

/-- `CounterAnimation.updateDisplay`: format the value, append the suffix
when non-empty (JS truthiness of `this.hasSuffix`), and append the plus
marker markup once the value has reached the target. -/
def updateDisplay (ct : CounterTarget) (value : Rat) : String :=
  let d := formatNumber value
  let d := if ct.suffix ≠ "" then d ++ ct.suffix else d
  if ct.hasPlus && value ≥ ct.targetValue
  then d ++ "<span class=\"stat-plus\">+</span>"
  else d

/-- `CounterAnimation.finish`: render the exact target
(`updateDisplay(this.targetValue)`). -/
def finishDisplay (ct : CounterTarget) : String :=
  updateDisplay ct ct.targetValue

/-- Result of one `CounterAnimation.animate` frame. -/
structure FrameResult where
  progress : Rat
  easedProgress : Rat
  currentValue : Rat
  display : String
  deriving Repr, DecidableEq

/-- One frame of `CounterAnimation.animate` (lines 95-119) as a pure
function of the elapsed time: `progress = min(elapsed/duration, 1)`,
eased progress from the selected easing, `currentValue = target × eased`,
then `updateDisplay`. -/
def animateStep (opts : CounterOptions) (ct : CounterTarget) (elapsed : Rat) :
    FrameResult :=
  let progress := min (elapsed / opts.duration) 1
  let eased := easingLookup opts.easingFunction progress
  let current := ct.targetValue * eased
  { progress := progress
    easedProgress := eased
    currentValue := current
    display := updateDisplay ct current }

/-- An element of a counter host document: an identity plus the text
content the `CounterAnimation` constructor reads. -/
structure CounterElem where
  id : Nat
  text : String
  deriving Repr, DecidableEq

/-- State of a `CounterObserver` instance: whether the
`IntersectionObserver` was constructed, the element→counter map, and the
observed set. -/
structure CounterObserverState where
  observerCreated : Bool
  counters : List (Nat × CounterTarget)
  observedCounters : List Nat
  deriving Repr, DecidableEq

/-- `CounterObserver.discoverCounters` (lines 218-232): register and
observe each matching element not already tracked. -/
def discoverCounters (doc : List CounterElem) (s : CounterObserverState) :
    CounterObserverState :=
  doc.foldl
    (fun acc e =>
      if (acc.counters.lookup e.id).isSome then acc
      else
        { acc with
          counters := acc.counters ++ [(e.id, mkCounterAnimation e.text)]
          observedCounters := acc.observedCounters ++ [e.id] })
    s

/-- Host environment facts read by the engines at startup. -/
structure JsEnv where
  intersectionObserverAvailable : Bool := true
  reducedMotion : Bool := false
  innerWidth : Int := 1024
  deriving Repr, DecidableEq

/-- `CounterObserver` constructor + `init` (lines 191-213):
`new IntersectionObserver(...)` is constructed unconditionally, so a host
without the primitive throws a ReferenceError (second component `true`)
before any counter is registered. -/
def mkCounterObserver (env : JsEnv) (doc : List CounterElem) :
    CounterObserverState × Bool :=
  if !env.intersectionObserverAvailable then
    ({ observerCreated := false, counters := [], observedCounters := [] }, true)
  else
    (discoverCounters doc
      { observerCreated := true, counters := [], observedCounters := [] }, false)

/-! ## Reveal Engine (`scroll-reveal.js`) -/

/-- The nine keys of the `ANIMATIONS` preset table. Each key denotes a
fixed {initial style-set, animate style-set} pair; the style-sets
themselves are opaque to every claim, so they are identified by their
kind. -/
inductive AnimKind
  | fadeUp | fadeDown | fadeLeft | fadeRight | fadePlain
  | zoomIn | zoomOut | flipLeft | flipRight
  deriving Repr, DecidableEq

/-- The `ANIMATIONS` table, keyed by the `data-reveal` string. -/
def animationsTable : List (String × AnimKind) :=
  [("fade-up", .fadeUp), ("fade-down", .fadeDown), ("fade-left", .fadeLeft),
   ("fade-right", .fadeRight), ("fade", .fadePlain), ("zoom-in", .zoomIn),
   ("zoom-out", .zoomOut), ("flip-left", .flipLeft), ("flip-right", .flipRight)]

/-- Inline style state the engine has driven an element to: untouched
authored styles, a preset's `initial` style-set (hidden/offset), or its
`animate` style-set. -/
inductive StylePhase
  | authored
  | initialSet (kind : AnimKind)
  | animateSet (kind : AnimKind)
  deriving Repr, DecidableEq

/-- Reveal `CONFIG` / constructor options (fields not consulted by any
claim — rootMargin, distance, easing string — are omitted; they only feed
opaque style strings). -/
structure SROptions where
  threshold : Rat := 3/20
  animationDuration : Int := 600
  staggerDelay : Nat := 100
  once : Bool := true
  mobile : Bool := true
  deriving Repr, DecidableEq

/-- A document element as seen by the Reveal Engine: identity plus the
four `data-reveal*` attributes (`none` = attribute absent). -/
structure DocElem where
  id : Nat
  dataReveal : Option String := none
  dataRevealDelay : Option String := none
  dataRevealDuration : Option String := none
  dataRevealStagger : Option String := none
  deriving Repr, DecidableEq

/-- Per-element registry record (the value stored in `this.elements`). -/
structure ElemData where
  kind : AnimKind
  animationType : String
  delay : Int
  duration : Int
  stagger : Bool
  index : Nat
  revealed : Bool
  deriving Repr, DecidableEq

/-- A scheduled `setTimeout(() => this.reveal(...))`: the JS closure
captures the element and its (immutable-field) registry record plus the
computed total delay. -/
structure PendingReveal where
  target : Nat
  data : ElemData
  delayMs : Int
  deriving Repr, DecidableEq

/-- State of a `ScrollReveal` instance. `revealEvents` logs every
`revealed` CustomEvent dispatch (element, animation type). -/
structure SRState where
  options : SROptions
  reducedMotion : Bool
  isMobile : Bool
  observerCreated : Bool := false
  elements : List (Nat × ElemData) := []
  observed : List Nat := []
  pending : List PendingReveal := []
  styles : List (Nat × StylePhase) := []
  revealEvents : List (Nat × String) := []
  deriving Repr, DecidableEq

/-- Update an association list at a key, preserving entry order. -/
def assocSet {α : Type} (l : List (Nat × α)) (k : Nat) (v : α) :
    List (Nat × α) :=
  match l with
  | [] => [(k, v)]
  | (k', v') :: rest =>
    if k' = k then (k, v) :: rest else (k', v') :: assocSet rest k v

/-- Style phase of an element (`authored` = never touched by the engine). -/
def styleOf (s : SRState) (e : Nat) : StylePhase :=
  (s.styles.lookup e).getD .authored

/-- `document.querySelectorAll('[data-reveal]')`: elements carrying the
attribute, in document order. -/
def queryReveal (doc : List DocElem) : List DocElem :=
  doc.filter (fun e => e.dataReveal.isSome)

/-- Body of the `forEach` in `ScrollReveal.discoverElements` (lines
182-211): membership check, preset resolution with fade-up fallback,
`parseInt`-with-`||`-default attribute reads, registry insertion keyed by
the NodeList index, initial styles, observation. -/
def discoverOne (opts : SROptions) (s : SRState) (ie : Nat × DocElem) : SRState :=
  if (s.elements.lookup ie.2.id).isSome then s
  else
    let revealAttr := ie.2.dataReveal.getD ""
    let animationType := if revealAttr = "" then "fade-up" else revealAttr
    let kind := (animationsTable.lookup animationType).getD .fadeUp
    let ed : ElemData :=
      { kind := kind
        animationType := animationType
        delay := jsOrNum (jsParseInt ie.2.dataRevealDelay) 0
        duration := jsOrNum (jsParseInt ie.2.dataRevealDuration) opts.animationDuration
        stagger := ie.2.dataRevealStagger = some "true"
        index := ie.1
        revealed := false }
    { s with
      elements := s.elements ++ [(ie.2.id, ed)]
      styles := assocSet s.styles ie.2.id (.initialSet kind)
      observed := s.observed ++ [ie.2.id] }

/-- `ScrollReveal.discoverElements` (lines 179-212). -/
def discoverElements (opts : SROptions) (doc : List DocElem) (s : SRState) :
    SRState :=
  ((queryReveal doc).enum).foldl (discoverOne opts) s

/-- `ScrollReveal` constructor + `init` (lines 134-174): reduced-motion
and mobile early returns leave the instance inert (`observer` null,
nothing tracked, no style writes); otherwise `new IntersectionObserver`
is constructed unconditionally — on a host without the primitive this
throws (second component `true`) before anything is tracked. -/
def mkScrollReveal (opts : SROptions) (env : JsEnv) (doc : List DocElem) :
    SRState × Bool :=
  let s0 : SRState :=
    { options := opts
      reducedMotion := env.reducedMotion
      isMobile := env.innerWidth < 768 }
  if s0.reducedMotion then (s0, false)
  else if s0.isMobile && !opts.mobile then (s0, false)
  else if !env.intersectionObserverAvailable then (s0, true)
  else (discoverElements opts doc { s0 with observerCreated := true }, false)

/-- The total delay computed in `handleIntersection` (lines 236-240):
`elementData.delay`, plus `index * staggerDelay` when stagger is on. -/
def totalDelayOf (opts : SROptions) (ed : ElemData) : Int :=
  ed.delay + (if ed.stagger then (ed.index * opts.staggerDelay : Int) else 0)

/-- `ScrollReveal.hide` (lines 285-294): re-apply the initial style-set
and clear the revealed flag. -/
def hideElem (s : SRState) (target : Nat) (ed : ElemData) : SRState :=
  { s with
    styles := assocSet s.styles target (.initialSet ed.kind)
    elements := assocSet s.elements target { ed with revealed := false } }

/-- One entry of the `entries.forEach` in `ScrollReveal.handleIntersection`
(lines 228-256): visible-and-unrevealed schedules a delayed reveal and,
under `once`, unobserves; hidden-while-revealed re-hides when the policy
is repeatable. -/
def handleEntry (s : SRState) (entry : Nat × Bool) : SRState :=
  match s.elements.lookup entry.1 with
  | none => s
  | some ed =>
    if entry.2 && !ed.revealed then
      let s1 :=
        { s with
          pending := s.pending ++
            [({ target := entry.1, data := ed,
                delayMs := totalDelayOf s.options ed } : PendingReveal)] }
      if s1.options.once then { s1 with observed := s1.observed.erase entry.1 }
      else s1
    else if !entry.2 && !s.options.once && ed.revealed then
      hideElem s entry.1 ed
    else s

/-- `ScrollReveal.handleIntersection` over a batch of entries. -/
def handleIntersection (s : SRState) (entries : List (Nat × Bool)) : SRState :=
  entries.foldl handleEntry s

/-- `ScrollReveal.reveal` (lines 261-280) as run by a fired timeout:
apply the animate style-set, set `revealed` on the (shared, mutable)
registry record when the element is still registered, and dispatch the
`revealed` CustomEvent with the animation type. -/
def revealElem (s : SRState) (p : PendingReveal) : SRState :=
  { s with
    styles := assocSet s.styles p.target (.animateSet p.data.kind)
    elements :=
      match s.elements.lookup p.target with
      | none => s.elements
      | some ed => assocSet s.elements p.target { ed with revealed := true }
    revealEvents := s.revealEvents ++ [(p.target, p.data.animationType)] }

/-- Firing of the i-th pending `setTimeout` reveal. -/
def fireTimeout (s : SRState) (i : Nat) : SRState :=
  match s.pending.get? i with
  | none => s
  | some p => revealElem { s with pending := s.pending.eraseIdx i } p

/-- `ScrollReveal.add` (lines 299-318). The registry insertion and the
initial styles happen BEFORE `this.observer.observe(element)`; on an
instance whose `init` was skipped `observer` is null and that call throws
a TypeError (second component `true`) after the partial mutation. -/
def addOp (s : SRState) (elemId : Nat) (animation : Option String)
    (delay : Option Int) (duration : Option Int) (stagger : Option Bool) :
    SRState × Bool :=
  if (s.elements.lookup elemId).isSome then (s, false)
  else
    let animationType :=
      match animation with
      | none => "fade-up"
      | some a => if a = "" then "fade-up" else a
    let kind := (animationsTable.lookup animationType).getD .fadeUp
    let ed : ElemData :=
      { kind := kind
        animationType := animationType
        delay := jsOrNum delay 0
        duration := jsOrNum duration s.options.animationDuration
        stagger := stagger.getD false
        index := s.elements.length
        revealed := false }
    let s1 :=
      { s with
        elements := s.elements ++ [(elemId, ed)]
        styles := assocSet s.styles elemId (.initialSet kind) }
    if s1.observerCreated then ({ s1 with observed := s1.observed ++ [elemId] }, false)
    else (s1, true)

/-- `ScrollReveal.remove` (lines 323-328): `unobserve` runs before the
registry delete, so on a null observer with the element registered the
TypeError fires first and nothing is deleted. -/
def removeOp (s : SRState) (elemId : Nat) : SRState × Bool :=
  if (s.elements.lookup elemId).isSome then
    if s.observerCreated then
      ({ s with
          observed := s.observed.erase elemId
          elements := s.elements.filter (fun kv => kv.1 != elemId) }, false)
    else (s, true)
  else (s, false)

/-- `ScrollReveal.reset` (lines 333-337): hide every registered element. -/
def resetAll (s : SRState) : SRState :=
  s.elements.foldl (fun acc kv => hideElem acc kv.1 kv.2) s

/-- `ScrollReveal.destroy` (lines 342-348): disconnect the observer when
it exists and clear the registry; never throws. -/
def destroyOp (s : SRState) : SRState :=
  let s1 := if s.observerCreated then { s with observed := [] } else s
  { s1 with elements := [] }

/-! ## Event traces

The asynchronous behaviour of a live instance is a sequence of host
events: delivery of an IntersectionObserver batch, firing of one pending
`setTimeout` reveal, or a caller's `reset()`. -/

/-- One host event hitting a `ScrollReveal` instance. -/
inductive SREvent
  | deliver (entries : List (Nat × Bool))
  | fire (i : Nat)
  | resetCall
  deriving Repr, DecidableEq

/-- Effect of one host event. -/
def srStep (s : SRState) : SREvent → SRState
  | .deliver entries => handleIntersection s entries
  | .fire i => fireTimeout s i
  | .resetCall => resetAll s

/-- Run a trace of host events. -/
def srRun (s : SRState) (evs : List SREvent) : SRState :=
  evs.foldl srStep s

/-- Detector-faithful event: an IntersectionObserver batch reports each
element at most once and only elements currently observed; timeout firing
and `reset()` are unconstrained. -/
def validEventB (s : SRState) : SREvent → Bool
  | .deliver entries =>
      decide ((entries.map Prod.fst).Nodup) &&
        entries.all (fun p => decide (p.1 ∈ s.observed))
  | .fire _ => true
  | .resetCall => true

/-- Detector-faithful trace. -/
def validTraceB (s : SRState) : List SREvent → Bool
  | [] => true
  | ev :: rest => validEventB s ev && validTraceB (srStep s ev) rest

/-- Number of pending scheduled reveals for an element. -/
def pendingCount (s : SRState) (e : Nat) : Nat :=
  (s.pending.filter (fun p => p.target == e)).length

/-- Number of `revealed` CustomEvents dispatched for an element. -/
def notifCount (s : SRState) (e : Nat) : Nat :=
  (s.revealEvents.filter (fun p => p.1 == e)).length

/-- Current `revealed` flag of a registered element (false if absent). -/
def revealedFlag (s : SRState) (e : Nat) : Bool :=
  match s.elements.lookup e with
  | some ed => ed.revealed
  | none => false

/-- Per-element at-most-once bookkeeping: while an element is still
observed nothing has been scheduled or dispatched for it, and in total at
most one reveal is in flight or already dispatched. -/
def atMostOnce (s : SRState) (e : Nat) : Prop :=
  (e ∈ s.observed → notifCount s e = 0 ∧ pendingCount s e = 0) ∧
  notifCount s e + pendingCount s e ≤ 1

/-- Engine-wide invariant for the once-policy argument. -/
def onceGood (s : SRState) : Prop :=
  s.options.once = true ∧ s.observed.Nodup ∧ ∀ e, atMostOnce s e

/-- Registration well-formedness: the observed list has no duplicates and
only holds registered elements. -/
def obsReg (s : SRState) : Prop :=
  s.observed.Nodup ∧ ∀ k ∈ s.observed, (s.elements.lookup k).isSome

/-- A permanently hidden element: unobserved, nothing pending, its
registry record (if any, possibly duplicated) unrevealed with preset `k`,
and its style driven to the initial (hidden) style-set of `k`. -/
def hiddenAt (e : Nat) (k : AnimKind) (s : SRState) : Prop :=
  e ∉ s.observed ∧ pendingCount s e = 0 ∧
  (∀ kv ∈ s.elements, kv.1 = e → kv.2.revealed = false ∧ kv.2.kind = k) ∧
  styleOf s e = StylePhase.initialSet k

/-! ## Concrete scenario fixtures -/

/-- The default configuration (`CONFIG` merged with no overrides). -/
def dftOpts : SROptions := {}

/-- A healthy desktop host: observer available, no reduced-motion. -/
def okEnv : JsEnv := {}

/-- A document with a single `data-reveal="fade-up"` element. -/
def oneElemDoc : List DocElem := [{ id := 0, dataReveal := some "fade-up" }]

/-- A fully initialized instance tracking the one element. -/
def liveState : SRState := (mkScrollReveal dftOpts okEnv oneElemDoc).1

/-- `liveState` after element 0 was reported visible, its reveal timeout
fired, and `reset()` was called. -/
def revealResetState : SRState :=
  srRun liveState [SREvent.deliver [(0, true)], SREvent.fire 0, SREvent.resetCall]

/-- A stagger-enabled registry record with delay 5 and the given index. -/
def staggerEd (i : Nat) : ElemData :=
  { kind := .fadeUp, animationType := "fade-up", delay := 5, duration := 600,
    stagger := true, index := i, revealed := false }

/-- An initialized instance whose registry holds one stagger-enabled
element. -/
def staggerState : SRState :=
  { options := {}, reducedMotion := false, isMobile := false,
    observerCreated := true, elements := [(3, staggerEd 2)], observed := [3] }

/-! ## Helper lemmas -/

/-- The reduced-motion early return of `init` leaves the instance inert. -/
lemma mkScrollReveal_reducedMotion (opts : SROptions) (env : JsEnv)
    (doc : List DocElem) (h : env.reducedMotion = true) :
    mkScrollReveal opts env doc =
      ({ options := opts, reducedMotion := true,
         isMobile := env.innerWidth < 768 }, false) := by
  simp [mkScrollReveal, h]

/-- `addOp` reports no throw when the observer exists. -/
lemma addOp_observer_total (s : SRState) (e : Nat) (a : Option String)
    (d du : Option Int) (st : Option Bool) (h : s.observerCreated = true) :
    (addOp s e a d du st).2 = false := by
  unfold addOp
  split
  · rfl
  · simp [h]

/-- `removeOp` reports no throw when the observer exists. -/
lemma removeOp_observer_total (s : SRState) (e : Nat)
    (h : s.observerCreated = true) : (removeOp s e).2 = false := by
  unfold removeOp
  split
  · simp [h]
  · rfl

/-- `removeOp` on an empty registry is a no-op without a throw. -/
lemma removeOp_empty_total (s : SRState) (e : Nat) (h : s.elements = []) :
    (removeOp s e).2 = false := by
  unfold removeOp
  rw [h]
  simp [List.lookup]

/-- `addOp` on an instance whose `init` was skipped by reduced motion
reaches the null `observer.observe` call and throws. -/
lemma addOp_skipped_throws (opts : SROptions) (env : JsEnv)
    (doc : List DocElem) (e : Nat) (a : Option String) (d du : Option Int)
    (st : Option Bool) (h : env.reducedMotion = true) :
    (addOp (mkScrollReveal opts env doc).1 e a d du st).2 = true := by
  rw [mkScrollReveal_reducedMotion opts env doc h]
  unfold addOp
  simp [List.lookup]

/-! ## Claim theorems -/

/-- C1, counterexample. With `IntersectionObserver` unavailable, the claim
says both engines degrade non-fatally and treat tracked elements as
visible; on this concrete host both constructors instead throw during
initialization and track nothing. -/
theorem c1_counterexample :
    (mkScrollReveal dftOpts { intersectionObserverAvailable := false }
      oneElemDoc).2 = true ∧
    (mkScrollReveal dftOpts { intersectionObserverAvailable := false }
      oneElemDoc).1.elements = [] ∧
    (mkCounterObserver { intersectionObserverAvailable := false }
      [{ id := 0, text := "1,234+" }]).2 = true ∧
    (mkCounterObserver { intersectionObserverAvailable := false }
      [{ id := 0, text := "1,234+" }]).1.counters = [] := by
  refine ⟨?_, ?_, ?_, ?_⟩ <;> decide

/-- C1, amended. If the host offers no `IntersectionObserver`, both the
Reveal Engine and the Counter Engine throw during initialization (there
is no always-visible fallback) and neither registers any element. -/
theorem c1_missing_primitive_throws (opts : SROptions) (env : JsEnv)
    (doc : List DocElem) (cdoc : List CounterElem)
    (hio : env.intersectionObserverAvailable = false)
    (hrm : env.reducedMotion = false) (hm : opts.mobile = true) :
    (mkScrollReveal opts env doc).2 = true ∧
    (mkScrollReveal opts env doc).1.elements = [] ∧
    (mkScrollReveal opts env doc).1.observed = [] ∧
    (mkCounterObserver env cdoc).2 = true ∧
    (mkCounterObserver env cdoc).1.counters = [] := by
  simp [mkScrollReveal, mkCounterObserver, hio, hrm, hm]

/-- C1 witness: the amended theorem applied to a concrete host without
the primitive. -/
theorem c1_missing_primitive_throws_witness :
    (mkScrollReveal dftOpts { intersectionObserverAvailable := false }
      [{ id := 5, dataReveal := some "zoom-in" }]).2 = true ∧
    (mkScrollReveal dftOpts { intersectionObserverAvailable := false }
      [{ id := 5, dataReveal := some "zoom-in" }]).1.elements = [] ∧
    (mkScrollReveal dftOpts { intersectionObserverAvailable := false }
      [{ id := 5, dataReveal := some "zoom-in" }]).1.observed = [] ∧
    (mkCounterObserver { intersectionObserverAvailable := false }
      [{ id := 6, text := "85" }]).2 = true ∧
    (mkCounterObserver { intersectionObserverAvailable := false }
      [{ id := 6, text := "85" }]).1.counters = [] :=
  c1_missing_primitive_throws dftOpts { intersectionObserverAvailable := false }
    [{ id := 5, dataReveal := some "zoom-in" }] [{ id := 6, text := "85" }]
    rfl rfl rfl

/-- C2, counterexample. `add` on an instance whose initialization was
skipped (reduced motion) dereferences the null observer and lets the
TypeError propagate: the claim that `add` succeeds on any instance fails
here. -/
theorem c2_counterexample :
    (addOp (mkScrollReveal dftOpts { reducedMotion := true } oneElemDoc).1
      7 none none none none).2 = true := by
  decide

/-- C2, amended. `add` and `remove` never throw on an instance whose
initialization ran (observer present); `remove` is also safe whenever the
registry is empty (in particular on a freshly skipped instance); `reset`
and `destroy` are total by construction; but `add` on an instance whose
initialization was skipped by reduced motion always throws. -/
theorem c2_control_surface_totality :
    (∀ (s : SRState) (e : Nat) (a : Option String) (d du : Option Int)
        (st : Option Bool), s.observerCreated = true →
        (addOp s e a d du st).2 = false) ∧
    (∀ (s : SRState) (e : Nat), s.observerCreated = true →
        (removeOp s e).2 = false) ∧
    (∀ (s : SRState) (e : Nat), s.elements = [] →
        (removeOp s e).2 = false) ∧
    (∀ (opts : SROptions) (env : JsEnv) (doc : List DocElem) (e : Nat)
        (a : Option String) (d du : Option Int) (st : Option Bool),
        env.reducedMotion = true →
        (addOp (mkScrollReveal opts env doc).1 e a d du st).2 = true) :=
  ⟨addOp_observer_total, removeOp_observer_total, removeOp_empty_total,
   addOp_skipped_throws⟩

/-- C2 witness: the amended theorem applied to concrete instances. -/
theorem c2_control_surface_totality_witness :
    (addOp liveState 9 none none none none).2 = false ∧
    (removeOp liveState 0).2 = false ∧
    (addOp (mkScrollReveal dftOpts { reducedMotion := true } oneElemDoc).1
      9 none none none none).2 = true :=
  ⟨c2_control_surface_totality.1 liveState 9 none none none none (by decide),
   c2_control_surface_totality.2.1 liveState 0 (by decide),
   c2_control_surface_totality.2.2.2 dftOpts { reducedMotion := true }
     oneElemDoc 9 none none none none rfl⟩

set_option maxRecDepth 100000 in
/-- C3. Counter parse/format round-trip: "1,234+" parses to target 1234
with the plus adornment and empty suffix and renders "1,234" plus the
marker; "2.5M" parses to target 2.5 with suffix "M" and renders the
floored "2" followed by "M". -/
theorem c3_counter_round_trip :
    mkCounterAnimation "1,234+" =
      { targetValue := 1234, hasPlus := true, suffix := "" } ∧
    finishDisplay (mkCounterAnimation "1,234+") =
      "1,234" ++ "<span class=\"stat-plus\">+</span>" ∧
    mkCounterAnimation "2.5M" =
      { targetValue := 5/2, hasPlus := false, suffix := "M" } ∧
    finishDisplay (mkCounterAnimation "2.5M") = "2" ++ "M" := by
  refine ⟨?_, ?_, ?_, ?_⟩ <;> with_unfolding_all decide

/-- C4. A visible, not-yet-revealed element gets its reveal scheduled
with total delay `delay + (stagger ? index × staggerDelay : 0)`; for
stagger-enabled records with equal delay the total delay is non-decreasing
in the registration index. -/
theorem c4_stagger_delay :
    (∀ (s : SRState) (e : Nat) (ed : ElemData),
        s.elements.lookup e = some ed → ed.revealed = false →
        (handleEntry s (e, true)).pending =
          s.pending ++
            [{ target := e, data := ed,
               delayMs := totalDelayOf s.options ed }]) ∧
    (∀ (opts : SROptions) (ed : ElemData),
        totalDelayOf opts ed =
          ed.delay +
            (if ed.stagger then (ed.index * opts.staggerDelay : Int) else 0)) ∧
    (∀ (opts : SROptions) (ed₁ ed₂ : ElemData),
        ed₁.stagger = true → ed₂.stagger = true → ed₁.delay = ed₂.delay →
        ed₁.index ≤ ed₂.index →
        totalDelayOf opts ed₁ ≤ totalDelayOf opts ed₂) := by
  refine ⟨?_, ?_, ?_⟩
  · intro s e ed h1 h2
    by_cases ho : s.options.once = true
    · simp [handleEntry, h1, h2, ho]
    · simp [handleEntry, h1, h2, ho]
  · intro opts ed
    rfl
  · intro opts ed₁ ed₂ h1 h2 h3 h4
    have hm : ed₁.index * opts.staggerDelay ≤ ed₂.index * opts.staggerDelay :=
      Nat.mul_le_mul_right _ h4
    simp [totalDelayOf, h1, h2, h3]
    omega

/-- C4 witness: the scheduling equation and the monotonicity at concrete
records of indices 2 and 5. -/
theorem c4_stagger_delay_witness :
    (handleEntry staggerState (3, true)).pending =
      staggerState.pending ++
        [{ target := 3, data := staggerEd 2,
           delayMs := totalDelayOf staggerState.options (staggerEd 2) }] ∧
    totalDelayOf ({} : SROptions) (staggerEd 2) ≤
      totalDelayOf ({} : SROptions) (staggerEd 5) :=
  ⟨c4_stagger_delay.1 staggerState 3 (staggerEd 2) (by decide) (by decide),
   c4_stagger_delay.2.2 ({} : SROptions) (staggerEd 2) (staggerEd 5)
     rfl rfl rfl (by decide)⟩

/-- C5. Under a reduced-motion preference at startup the Reveal Engine
skips initialization: no observer, no elements registered or observed, no
style mutations, no throw. -/
theorem c5_reduced_motion_skips (opts : SROptions) (env : JsEnv)
    (doc : List DocElem) (h : env.reducedMotion = true) :
    (mkScrollReveal opts env doc).1.elements = [] ∧
    (mkScrollReveal opts env doc).1.observed = [] ∧
    (mkScrollReveal opts env doc).1.styles = [] ∧
    (mkScrollReveal opts env doc).1.observerCreated = false ∧
    (mkScrollReveal opts env doc).2 = false := by
  rw [mkScrollReveal_reducedMotion opts env doc h]
  exact ⟨rfl, rfl, rfl, rfl, rfl⟩

/-- C5 witness: a concrete reduced-motion host with a discoverable
element leaves the instance untouched. -/
theorem c5_reduced_motion_skips_witness :
    (mkScrollReveal dftOpts { reducedMotion := true } oneElemDoc).1.styles = [] ∧
    (mkScrollReveal dftOpts { reducedMotion := true } oneElemDoc).1.observed = [] :=
  ⟨(c5_reduced_motion_skips dftOpts { reducedMotion := true } oneElemDoc rfl).2.2.1,
   (c5_reduced_motion_skips dftOpts { reducedMotion := true } oneElemDoc rfl).2.1⟩

/-- C8. Every entry of the easing table maps 0 to 0 and 1 to 1 exactly
(hence within any positive tolerance). -/
theorem c8_easing_boundary :
    (easingFunctions.all (fun p => p.2 0 == 0 && p.2 1 == 1)) = true ∧
    linearEase 0 = 0 ∧ linearEase 1 = 1 ∧
    easeInQuad 0 = 0 ∧ easeInQuad 1 = 1 ∧
    easeOutQuad 0 = 0 ∧ easeOutQuad 1 = 1 ∧
    easeInOutQuad 0 = 0 ∧ easeInOutQuad 1 = 1 ∧
    easeInCubic 0 = 0 ∧ easeInCubic 1 = 1 ∧
    easeOutCubic 0 = 0 ∧ easeOutCubic 1 = 1 ∧
    easeInOutCubic 0 = 0 ∧ easeInOutCubic 1 = 1 := by
  refine ⟨?_, ?_, ?_, ?_, ?_, ?_, ?_, ?_, ?_, ?_, ?_, ?_, ?_, ?_, ?_⟩ <;>
    with_unfolding_all decide

/-- C9. Per-frame semantics of the counter: progress is
`min(elapsed/duration, 1)`, the current value is the target scaled by the
eased progress, the rendering floors it; in the concrete scenario
(target 42, duration 2000 ms, easeOutQuad, elapsed 1000 ms) the eased
progress is 0.75 and the display is "31". -/
theorem c9_animation_frame :
    (∀ (opts : CounterOptions) (ct : CounterTarget) (elapsed : Rat),
        (animateStep opts ct elapsed).progress = min (elapsed / opts.duration) 1 ∧
        (animateStep opts ct elapsed).easedProgress =
          easingLookup opts.easingFunction (min (elapsed / opts.duration) 1) ∧
        (animateStep opts ct elapsed).currentValue =
          ct.targetValue * (animateStep opts ct elapsed).easedProgress ∧
        (animateStep opts ct elapsed).display =
          updateDisplay ct ((animateStep opts ct elapsed).currentValue)) ∧
    (animateStep { duration := 2000, easingFunction := "easeOutQuad" }
        { targetValue := 42, hasPlus := false, suffix := "" } 1000).progress =
      1/2 ∧
    (animateStep { duration := 2000, easingFunction := "easeOutQuad" }
        { targetValue := 42, hasPlus := false, suffix := "" } 1000).easedProgress =
      3/4 ∧
    (animateStep { duration := 2000, easingFunction := "easeOutQuad" }
        { targetValue := 42, hasPlus := false, suffix := "" } 1000).currentValue =
      63/2 ∧
    (animateStep { duration := 2000, easingFunction := "easeOutQuad" }
        { targetValue := 42, hasPlus := false, suffix := "" } 1000).display =
      "31" := by
  refine ⟨fun opts ct elapsed => ⟨rfl, rfl, rfl, rfl⟩, ?_, ?_, ?_, ?_⟩ <;>
    with_unfolding_all decide

/-- Lookup hits an appended singleton at its own key. -/
lemma lookup_append_singleton_isSome {α : Type} (l : List (Nat × α)) (k : Nat)
    (v : α) : ((l ++ [(k, v)]).lookup k).isSome := by
  induction l with
  | nil => simp [List.lookup]
  | cons a t ih =>
    obtain ⟨k', v'⟩ := a
    rw [List.cons_append, List.lookup_cons]
    cases hk : (k == k') <;> simp [ih]

/-- Lookup stays successful after appending on the right. -/
lemma lookup_append_left_isSome {α : Type} (l1 l2 : List (Nat × α)) (k : Nat)
    (h : (l1.lookup k).isSome) : ((l1 ++ l2).lookup k).isSome := by
  induction l1 with
  | nil => simp [List.lookup] at h
  | cons a t ih =>
    obtain ⟨k', v'⟩ := a
    rw [List.cons_append, List.lookup_cons]
    rw [List.lookup_cons] at h
    cases hk : (k == k') <;> simp only [hk] at h ⊢
    · exact ih h
    · rfl

/-- `discoverOne` never drops a registered element. -/
lemma discoverOne_preserves_isSome (opts : SROptions) (s : SRState)
    (ie : Nat × DocElem) (k : Nat) (h : (s.elements.lookup k).isSome) :
    ((discoverOne opts s ie).elements.lookup k).isSome := by
  unfold discoverOne
  split
  · exact h
  · exact lookup_append_left_isSome _ _ _ h

/-- After `discoverOne` its element is registered. -/
lemma discoverOne_registers (opts : SROptions) (s : SRState)
    (ie : Nat × DocElem) :
    ((discoverOne opts s ie).elements.lookup ie.2.id).isSome := by
  unfold discoverOne
  split
  · assumption
  · exact lookup_append_singleton_isSome _ _ _

/-- The discovery fold never drops a registered element. -/
lemma foldl_discoverOne_preserves (opts : SROptions) (L : List (Nat × DocElem))
    (s : SRState) (k : Nat) (h : (s.elements.lookup k).isSome) :
    ((L.foldl (discoverOne opts) s).elements.lookup k).isSome := by
  induction L generalizing s with
  | nil => exact h
  | cons a t ih =>
    exact ih (discoverOne opts s a) (discoverOne_preserves_isSome opts s a k h)

/-- After the discovery fold every processed element is registered. -/
lemma foldl_discoverOne_registers (opts : SROptions) (L : List (Nat × DocElem))
    (s : SRState) :
    ∀ p ∈ L, ((L.foldl (discoverOne opts) s).elements.lookup p.2.id).isSome := by
  induction L generalizing s with
  | nil => intro p hp; cases hp
  | cons a t ih =>
    intro p hp
    rcases List.mem_cons.mp hp with h | h
    · subst h
      exact foldl_discoverOne_preserves opts t (discoverOne opts s p) p.2.id
        (discoverOne_registers opts s p)
    · exact ih (discoverOne opts s a) p h

/-- `discoverOne` is the identity on already-registered elements (the
membership guard). -/
lemma discoverOne_noop (opts : SROptions) (s : SRState) (ie : Nat × DocElem)
    (h : (s.elements.lookup ie.2.id).isSome) : discoverOne opts s ie = s := by
  unfold discoverOne
  rw [if_pos h]

/-- The discovery fold is the identity when everything it would process is
already registered. -/
lemma foldl_discoverOne_noop (opts : SROptions) (L : List (Nat × DocElem))
    (s : SRState) (h : ∀ p ∈ L, (s.elements.lookup p.2.id).isSome) :
    L.foldl (discoverOne opts) s = s := by
  induction L with
  | nil => rfl
  | cons a t ih =>
    rw [List.foldl_cons, discoverOne_noop opts s a (h a (List.mem_cons_self a t)),
      ih (fun p hp => h p (List.mem_cons_of_mem a hp))]

/-- C7. `discover()` is idempotent: a second scan of the same document
changes nothing — same registry, same observation set, same styles — and
in particular the registry size is unchanged. -/
theorem c7_discover_idempotent (opts : SROptions) (doc : List DocElem)
    (s : SRState) :
    discoverElements opts doc (discoverElements opts doc s) =
      discoverElements opts doc s ∧
    (discoverElements opts doc (discoverElements opts doc s)).elements.length =
      (discoverElements opts doc s).elements.length := by
  have h := foldl_discoverOne_registers opts ((queryReveal doc).enum) s
  have h2 : discoverElements opts doc (discoverElements opts doc s) =
      discoverElements opts doc s := foldl_discoverOne_noop opts _ _ h
  exact ⟨h2, by rw [h2]⟩

/-- Everything in an updated association list is either old or the new
binding. -/
lemma mem_assocSet {α : Type} (l : List (Nat × α)) (k : Nat) (v : α) :
    ∀ kv ∈ assocSet l k v, kv ∈ l ∨ kv = (k, v) := by
  induction l with
  | nil =>
    intro kv h
    simp [assocSet] at h
    right; exact h
  | cons a t ih =>
    intro kv h
    obtain ⟨k', v'⟩ := a
    unfold assocSet at h
    by_cases hk : k' = k
    · rw [if_pos hk] at h
      rcases List.mem_cons.mp h with h1 | h1
      · right; exact h1
      · left; exact List.mem_cons_of_mem _ h1
    · rw [if_neg hk] at h
      rcases List.mem_cons.mp h with h1 | h1
      · left; rw [h1]; exact List.mem_cons_self _ _
      · rcases ih kv h1 with h2 | h2
        · left; exact List.mem_cons_of_mem _ h2
        · right; exact h2

/-- Updating one key leaves other keys' lookups unchanged. -/
lemma lookup_assocSet_ne {α : Type} (l : List (Nat × α)) (k k' : Nat) (v : α)
    (h : k ≠ k') : (assocSet l k v).lookup k' = l.lookup k' := by
  induction l with
  | nil =>
    rw [show assocSet ([] : List (Nat × α)) k v = [(k, v)] from rfl,
      List.lookup_cons, beq_false_of_ne (Ne.symm h)]
  | cons a t ih =>
    obtain ⟨k₀, v₀⟩ := a
    unfold assocSet
    by_cases hk : k₀ = k
    · rw [if_pos hk]
      rw [List.lookup_cons, List.lookup_cons]
      have h1 : (k' == k) = false := beq_false_of_ne (Ne.symm h)
      have h2 : (k' == k₀) = false := by
        rw [hk]
        exact h1
      rw [h1, h2]
    · rw [if_neg hk]
      rw [List.lookup_cons, List.lookup_cons]
      cases hx : (k' == k₀)
      · simpa using ih
      · rfl

/-- Updating a key makes its lookup return the new value. -/
lemma lookup_assocSet_self {α : Type} (l : List (Nat × α)) (k : Nat) (v : α) :
    (assocSet l k v).lookup k = some v := by
  induction l with
  | nil => simp [assocSet, List.lookup_cons]
  | cons a t ih =>
    obtain ⟨k₀, v₀⟩ := a
    unfold assocSet
    by_cases hk : k₀ = k
    · rw [if_pos hk, List.lookup_cons]
      simp
    · rw [if_neg hk, List.lookup_cons]
      have h2 : (k == k₀) = false := by
        rw [show (k == k₀) = decide (k = k₀) from rfl]
        simp
        exact fun he => hk he.symm
      rw [h2]
      exact ih

/-- A successful lookup produces a member of the list. -/
lemma lookup_mem {α : Type} (l : List (Nat × α)) (k : Nat) (v : α)
    (h : l.lookup k = some v) : (k, v) ∈ l := by
  induction l with
  | nil => simp [List.lookup] at h
  | cons a t ih =>
    obtain ⟨k', v'⟩ := a
    rw [List.lookup_cons] at h
    cases hk : (k == k') <;> simp only [hk] at h
    · exact List.mem_cons_of_mem _ (ih h)
    · have hkk : k = k' := by simpa using hk
      have hvv : v' = v := by simpa using h
      rw [hkk, ← hvv]
      exact List.mem_cons_self _ _

/-- Removing the i-th element removes exactly one filtered occurrence
when that element satisfies the predicate, none otherwise. -/
lemma length_filter_eraseIdx {α : Type} (f : α → Bool) (l : List α) (i : Nat)
    (x : α) (h : l.get? i = some x) :
    ((l.eraseIdx i).filter f).length + (if f x then 1 else 0) =
      (l.filter f).length := by
  induction l generalizing i with
  | nil => simp at h
  | cons a t ih =>
    cases i with
    | zero =>
      have hx : a = x := by simpa using h
      subst hx
      rw [List.eraseIdx_cons_zero, List.filter_cons]
      cases hf : f a <;> simp [hf]
    | succ n =>
      have h2 : t.get? n = some x := by simpa using h
      have ih2 := ih n h2
      rw [List.eraseIdx_cons_succ, List.filter_cons, List.filter_cons]
      cases hf : f a <;> simp [hf] <;> omega

/-- Case analysis of one `handleIntersection` entry: no-op, schedule (the
visible-and-unrevealed branch, with the once-policy unobserve), or
re-hide (repeatable policy only). -/
lemma handleEntry_shape (s : SRState) (p : Nat × Bool) :
    handleEntry s p = s ∨
    (∃ ed, s.elements.lookup p.1 = some ed ∧ ed.revealed = false ∧
      p.2 = true ∧
      handleEntry s p =
        { s with
          pending := s.pending ++
            [{ target := p.1, data := ed,
               delayMs := totalDelayOf s.options ed }]
          observed :=
            if s.options.once = true then s.observed.erase p.1
            else s.observed }) ∨
    (∃ ed, s.elements.lookup p.1 = some ed ∧ s.options.once = false ∧
      handleEntry s p = hideElem s p.1 ed) := by
  obtain ⟨t, vis⟩ := p
  cases hl : s.elements.lookup t with
  | none => left; simp [handleEntry, hl]
  | some ed =>
    by_cases h1 : (vis && !ed.revealed) = true
    · right; left
      obtain ⟨hv, hr⟩ := Bool.and_eq_true_iff.mp h1
      refine ⟨ed, rfl, by simpa using hr, hv, ?_⟩
      by_cases ho : s.options.once = true
      · simp [handleEntry, hl, h1, ho]
      · simp [handleEntry, hl, h1, ho]
    · by_cases h2 : (!vis && !s.options.once && ed.revealed) = true
      · right; right
        refine ⟨ed, rfl, ?_, ?_⟩
        · obtain ⟨h3, _⟩ := Bool.and_eq_true_iff.mp h2
          obtain ⟨_, h4⟩ := Bool.and_eq_true_iff.mp h3
          simpa using h4
        · simp [handleEntry, hl, h1, h2]
      · left
        simp [handleEntry, hl, h1, h2]

/-- `reveal` dispatches exactly one notification, for its own target. -/
lemma notifCount_revealElem (s : SRState) (p : PendingReveal) (e : Nat) :
    notifCount (revealElem s p) e =
      notifCount s e + (if p.target = e then 1 else 0) := by
  show ((s.revealEvents ++ [(p.target, p.data.animationType)]).filter
      (fun q => q.1 == e)).length = _
  by_cases he : p.target = e
  · simp [List.filter_append, he, notifCount]
  · simp [List.filter_append, beq_false_of_ne he, he, notifCount]

/-- One visible-batch entry preserves the once-policy invariant and the
observation status of every other element. -/
lemma handleEntry_good (s : SRState) (p : Nat × Bool) (hg : onceGood s)
    (hobs : p.1 ∈ s.observed) :
    onceGood (handleEntry s p) ∧
    ∀ q : Nat, q ≠ p.1 → (q ∈ (handleEntry s p).observed ↔ q ∈ s.observed) := by
  obtain ⟨ho, hn, hi⟩ := hg
  rcases handleEntry_shape s p with hs | ⟨ed, hl, hrev, hvis, hs⟩ |
    ⟨ed, hl, hnonce, hs⟩
  · rw [hs]
    exact ⟨⟨ho, hn, hi⟩, fun q _ => Iff.rfl⟩
  · rw [hs]
    simp only [ho, if_pos]
    constructor
    · refine ⟨ho, hn.erase _, ?_⟩
      intro e
      by_cases he : p.1 = e
      · subst he
        have h0 := (hi p.1).1 hobs
        constructor
        · intro hmem
          exact absurd rfl (hn.mem_erase_iff.mp hmem).1
        · have hpend : pendingCount
              { s with
                pending := s.pending ++
                  [{ target := p.1, data := ed,
                     delayMs := totalDelayOf s.options ed }]
                observed := s.observed.erase p.1 } p.1 =
              pendingCount s p.1 + 1 := by
            simp [pendingCount, List.filter_append]
          rw [hpend]
          have hnotif : notifCount
              { s with
                pending := s.pending ++
                  [{ target := p.1, data := ed,
                     delayMs := totalDelayOf s.options ed }]
                observed := s.observed.erase p.1 } p.1 =
              notifCount s p.1 := rfl
          rw [hnotif, h0.1, h0.2]
      · have hpend : pendingCount
            { s with
              pending := s.pending ++
                [{ target := p.1, data := ed,
                   delayMs := totalDelayOf s.options ed }]
              observed := s.observed.erase p.1 } e =
            pendingCount s e := by
          simp [pendingCount, List.filter_append, beq_false_of_ne he]
        constructor
        · intro hmem
          have h2 := (hi e).1 (List.mem_of_mem_erase hmem)
          exact ⟨h2.1, by rw [hpend]; exact h2.2⟩
        · rw [hpend]
          exact (hi e).2
    · intro q hq
      constructor
      · exact fun h => List.mem_of_mem_erase h
      · exact fun h => hn.mem_erase_iff.mpr ⟨hq, h⟩
  · rw [hnonce] at ho
    cases ho

/-- A detector-faithful batch preserves the once-policy invariant. -/
lemma handleBatch_good (entries : List (Nat × Bool)) (s : SRState)
    (hg : onceGood s) (hnd : (entries.map Prod.fst).Nodup)
    (hobs : ∀ p ∈ entries, p.1 ∈ s.observed) :
    onceGood (handleIntersection s entries) := by
  induction entries generalizing s with
  | nil => exact hg
  | cons p rest ih =>
    have h1 := handleEntry_good s p hg (hobs p (List.mem_cons_self p rest))
    have hnd2 : (rest.map Prod.fst).Nodup := (List.nodup_cons.mp hnd).2
    have hnotin : p.1 ∉ rest.map Prod.fst := (List.nodup_cons.mp hnd).1
    exact ih (handleEntry s p) h1.1 hnd2 (fun q hq =>
      (h1.2 q.1 (fun hqe => hnotin (hqe ▸ List.mem_map_of_mem Prod.fst hq))).mpr
        (hobs q (List.mem_cons_of_mem _ hq)))

/-- Firing a pending reveal timeout preserves the once-policy invariant. -/
lemma fireTimeout_good (s : SRState) (i : Nat) (hg : onceGood s) :
    onceGood (fireTimeout s i) := by
  obtain ⟨ho, hn, hi⟩ := hg
  unfold fireTimeout
  cases hp : s.pending.get? i with
  | none => exact ⟨ho, hn, hi⟩
  | some p =>
    refine ⟨ho, hn, ?_⟩
    intro e
    have hpmem : p ∈ s.pending := List.get?_mem hp
    by_cases he : p.target = e
    · subst he
      have hpos : 0 < pendingCount s p.target := by
        have hmf : p ∈ s.pending.filter (fun q => q.target == p.target) :=
          List.mem_filter.mpr ⟨hpmem, by simp⟩
        exact List.length_pos.mpr (List.ne_nil_of_mem hmf)
      have hsum := (hi p.target).2
      have hpend' : pendingCount
          (revealElem { s with pending := s.pending.eraseIdx i } p) p.target
          = pendingCount s p.target - 1 := by
        have h1 := length_filter_eraseIdx (fun q => q.target == p.target)
          s.pending i p hp
        simp at h1
        show ((s.pending.eraseIdx i).filter (fun q => q.target == p.target)).length
          = (s.pending.filter (fun q => q.target == p.target)).length - 1
        omega
      have hnotif' := notifCount_revealElem
        { s with pending := s.pending.eraseIdx i } p p.target
      simp at hnotif'
      have hne : notifCount { s with pending := s.pending.eraseIdx i } p.target =
          notifCount s p.target := rfl
      constructor
      · intro hmem
        have h2 := (hi p.target).1 hmem
        exact absurd h2.2 (Nat.pos_iff_ne_zero.mp hpos)
      · rw [hnotif', hpend', hne]
        omega
    · have hpend' : pendingCount
          (revealElem { s with pending := s.pending.eraseIdx i } p) e
          = pendingCount s e := by
        have h1 := length_filter_eraseIdx (fun q => q.target == e)
          s.pending i p hp
        rw [show ((fun (q : PendingReveal) => q.target == e) p) = false from
          beq_false_of_ne he] at h1
        simp at h1
        show ((s.pending.eraseIdx i).filter (fun q => q.target == e)).length
          = (s.pending.filter (fun q => q.target == e)).length
        omega
      have hnotif' := notifCount_revealElem
        { s with pending := s.pending.eraseIdx i } p e
      rw [if_neg he] at hnotif'
      simp at hnotif'
      have hne : notifCount { s with pending := s.pending.eraseIdx i } e =
          notifCount s e := rfl
      constructor
      · intro hmem
        have h2 := (hi e).1 hmem
        exact ⟨by rw [hnotif', hne]; exact h2.1, by rw [hpend']; exact h2.2⟩
      · rw [hnotif', hpend', hne]
        exact (hi e).2

/-- The `reset()` fold touches only styles and registry records. -/
lemma hideFold_proj (l : List (Nat × ElemData)) (s : SRState) :
    (l.foldl (fun acc kv => hideElem acc kv.1 kv.2) s).observed = s.observed ∧
    (l.foldl (fun acc kv => hideElem acc kv.1 kv.2) s).pending = s.pending ∧
    (l.foldl (fun acc kv => hideElem acc kv.1 kv.2) s).revealEvents =
      s.revealEvents ∧
    (l.foldl (fun acc kv => hideElem acc kv.1 kv.2) s).options = s.options := by
  induction l generalizing s with
  | nil => exact ⟨rfl, rfl, rfl, rfl⟩
  | cons a t ih => exact ih (hideElem s a.1 a.2)

/-- `reset()` preserves the once-policy invariant. -/
lemma resetAll_good (s : SRState) (hg : onceGood s) :
    onceGood (resetAll s) := by
  obtain ⟨ho, hn, hi⟩ := hg
  obtain ⟨h1, h2, h3, h4⟩ := hideFold_proj s.elements s
  refine ⟨by rw [show (resetAll s).options = s.options from h4]; exact ho,
    by rw [show (resetAll s).observed = s.observed from h1]; exact hn, ?_⟩
  intro e
  have hnotif : notifCount (resetAll s) e = notifCount s e := by
    unfold notifCount
    rw [show (resetAll s).revealEvents = s.revealEvents from h3]
  have hpend : pendingCount (resetAll s) e = pendingCount s e := by
    unfold pendingCount
    rw [show (resetAll s).pending = s.pending from h2]
  constructor
  · intro hmem
    rw [show (resetAll s).observed = s.observed from h1] at hmem
    have h5 := (hi e).1 hmem
    rw [hnotif, hpend]
    exact h5
  · rw [hnotif, hpend]
    exact (hi e).2

/-- Every detector-faithful host event preserves the once-policy
invariant. -/
lemma srStep_good (s : SRState) (ev : SREvent) (hg : onceGood s)
    (hv : validEventB s ev = true) : onceGood (srStep s ev) := by
  cases ev with
  | deliver entries =>
    obtain ⟨h1, h2⟩ := Bool.and_eq_true_iff.mp hv
    exact handleBatch_good entries s hg (of_decide_eq_true h1)
      (fun p hp => of_decide_eq_true (List.all_eq_true.mp h2 p hp))
  | fire i => exact fireTimeout_good s i hg
  | resetCall => exact resetAll_good s hg

/-- Detector-faithful traces preserve the once-policy invariant. -/
lemma srRun_good (s : SRState) (evs : List SREvent) (hg : onceGood s)
    (hv : validTraceB s evs = true) : onceGood (srRun s evs) := by
  induction evs generalizing s with
  | nil => exact hg
  | cons ev rest ih =>
    obtain ⟨h1, h2⟩ := Bool.and_eq_true_iff.mp hv
    exact ih (srStep s ev) (srStep_good s ev hg h1) h2

/-- Discovery never schedules reveals, dispatches notifications, or
changes options. -/
lemma discoverOne_proj (opts : SROptions) (s : SRState) (ie : Nat × DocElem) :
    (discoverOne opts s ie).pending = s.pending ∧
    (discoverOne opts s ie).revealEvents = s.revealEvents ∧
    (discoverOne opts s ie).options = s.options := by
  unfold discoverOne
  split
  · exact ⟨rfl, rfl, rfl⟩
  · exact ⟨rfl, rfl, rfl⟩

/-- The discovery fold never schedules reveals, dispatches
notifications, or changes options. -/
lemma foldl_discoverOne_proj (opts : SROptions) (L : List (Nat × DocElem))
    (s : SRState) :
    (L.foldl (discoverOne opts) s).pending = s.pending ∧
    (L.foldl (discoverOne opts) s).revealEvents = s.revealEvents ∧
    (L.foldl (discoverOne opts) s).options = s.options := by
  induction L generalizing s with
  | nil => exact ⟨rfl, rfl, rfl⟩
  | cons a t ih =>
    have h1 := discoverOne_proj opts s a
    have h2 := ih (discoverOne opts s a)
    exact ⟨h2.1.trans h1.1, h2.2.1.trans h1.2.1, h2.2.2.trans h1.2.2⟩

/-- Discovery keeps the observed list duplicate-free and registered. -/
lemma discoverOne_obsReg (opts : SROptions) (s : SRState) (ie : Nat × DocElem)
    (h : obsReg s) : obsReg (discoverOne opts s ie) := by
  obtain ⟨hn, hm⟩ := h
  by_cases hg : (s.elements.lookup ie.2.id).isSome
  · rw [discoverOne_noop opts s ie hg]
    exact ⟨hn, hm⟩
  · unfold discoverOne
    rw [if_neg hg]
    constructor
    · have hnotin : ie.2.id ∉ s.observed := fun hin => hg (hm _ hin)
      show (s.observed ++ [ie.2.id]).Nodup
      simp [List.nodup_append, hn, hnotin]
    · intro k hk
      rcases List.mem_append.mp hk with h1 | h1
      · exact lookup_append_left_isSome _ _ _ (hm k h1)
      · have hkid : k = ie.2.id := by simpa using h1
        rw [hkid]
        exact lookup_append_singleton_isSome _ _ _

/-- The discovery fold keeps the observed list duplicate-free and
registered. -/
lemma foldl_discoverOne_obsReg (opts : SROptions) (L : List (Nat × DocElem))
    (s : SRState) (h : obsReg s) : obsReg (L.foldl (discoverOne opts) s) := by
  induction L generalizing s with
  | nil => exact h
  | cons a t ih => exact ih (discoverOne opts s a) (discoverOne_obsReg opts s a h)

/-- `init` either leaves the instance inert (skip or throw) or runs
discovery on the observer-equipped state. -/
lemma mkScrollReveal_cases (opts : SROptions) (env : JsEnv)
    (doc : List DocElem) :
    (mkScrollReveal opts env doc).1 =
      ({ options := opts, reducedMotion := env.reducedMotion,
         isMobile := env.innerWidth < 768 } : SRState) ∨
    (mkScrollReveal opts env doc).1 =
      discoverElements opts doc
        ({ options := opts, reducedMotion := env.reducedMotion,
           isMobile := env.innerWidth < 768, observerCreated := true } : SRState) := by
  unfold mkScrollReveal
  by_cases h1 : env.reducedMotion = true
  · left; simp [h1]
  · by_cases h2 : (decide (env.innerWidth < 768) && !opts.mobile) = true
    · left; simp [h1, h2]
    · by_cases h3 : env.intersectionObserverAvailable = true
      · right; simp [h1, h2, h3]
      · left; simp [h1, h2, h3]

/-- A freshly constructed instance has no pending reveals, no dispatched
notifications, the given options, and a well-formed observed list. -/
lemma mkScrollReveal_state (opts : SROptions) (env : JsEnv)
    (doc : List DocElem) :
    (mkScrollReveal opts env doc).1.pending = [] ∧
    (mkScrollReveal opts env doc).1.revealEvents = [] ∧
    (mkScrollReveal opts env doc).1.options = opts ∧
    obsReg (mkScrollReveal opts env doc).1 := by
  rcases mkScrollReveal_cases opts env doc with hc | hc <;> rw [hc]
  · exact ⟨rfl, rfl, rfl, List.nodup_nil, by intro k hk; cases hk⟩
  · have hp := foldl_discoverOne_proj opts ((queryReveal doc).enum)
      ({ options := opts, reducedMotion := env.reducedMotion,
         isMobile := env.innerWidth < 768, observerCreated := true } : SRState)
    have hr := foldl_discoverOne_obsReg opts ((queryReveal doc).enum)
      ({ options := opts, reducedMotion := env.reducedMotion,
         isMobile := env.innerWidth < 768, observerCreated := true } : SRState)
      ⟨List.nodup_nil, by intro k hk; cases hk⟩
    exact ⟨hp.1, hp.2.1, hp.2.2, hr⟩

/-- A freshly constructed once-policy instance satisfies the at-most-once
invariant. -/
lemma mkScrollReveal_onceGood (opts : SROptions) (env : JsEnv)
    (doc : List DocElem) (h : opts.once = true) :
    onceGood (mkScrollReveal opts env doc).1 := by
  obtain ⟨hp, he, hopt, hreg⟩ := mkScrollReveal_state opts env doc
  have hnotif : ∀ e, notifCount (mkScrollReveal opts env doc).1 e = 0 := by
    intro e; unfold notifCount; rw [he]; rfl
  have hpend : ∀ e, pendingCount (mkScrollReveal opts env doc).1 e = 0 := by
    intro e; unfold pendingCount; rw [hp]; rfl
  exact ⟨by rw [hopt]; exact h, hreg.1, fun e =>
    ⟨fun _ => ⟨hnotif e, hpend e⟩, by rw [hnotif e, hpend e]; decide⟩⟩

/-- C6, counterexample. The claim quantifies over arbitrary
visibility-change batch sequences; a single batch that reports element 0
visible twice (the host API reports one entry per threshold crossing, so
in-out-in between two deliveries produces exactly this) schedules two
reveal timeouts — the `revealed` guard is only set when the deferred
timeout fires — and both dispatch, so the notification fires twice. -/
theorem c6_counterexample :
    notifCount (srRun liveState
      [SREvent.deliver [(0, true), (0, true)], SREvent.fire 0, SREvent.fire 0])
      0 = 2 ∧
    ¬ notifCount (srRun liveState
      [SREvent.deliver [(0, true), (0, true)], SREvent.fire 0, SREvent.fire 0])
      0 ≤ 1 := by
  exact ⟨by decide, by decide⟩

/-- C6, amended. Under the global `once=true` policy, for every element
and every detector-faithful trace (batches report only currently observed
elements, each at most once per batch), the `revealed` notification is
dispatched at most once over the lifetime of the instance. -/
theorem c6_once_at_most_one (opts : SROptions) (env : JsEnv)
    (doc : List DocElem) (evs : List SREvent) (e : Nat)
    (h : opts.once = true)
    (hv : validTraceB (mkScrollReveal opts env doc).1 evs = true) :
    notifCount (srRun (mkScrollReveal opts env doc).1 evs) e ≤ 1 := by
  have hg := srRun_good (mkScrollReveal opts env doc).1 evs
    (mkScrollReveal_onceGood opts env doc h) hv
  have h2 := (hg.2.2 e).2
  omega

/-- C6 witness: the amended theorem applied to a concrete instance and a
concrete valid trace that reveals element 0. -/
theorem c6_once_at_most_one_witness :
    validTraceB (mkScrollReveal dftOpts okEnv oneElemDoc).1
      [SREvent.deliver [(0, true)], SREvent.fire 0] = true ∧
    notifCount (srRun (mkScrollReveal dftOpts okEnv oneElemDoc).1
      [SREvent.deliver [(0, true)], SREvent.fire 0]) 0 ≤ 1 :=
  ⟨by decide, c6_once_at_most_one dftOpts okEnv oneElemDoc
    [SREvent.deliver [(0, true)], SREvent.fire 0] 0 rfl (by decide)⟩

/-- Appending a pending reveal for a different target does not change an
element's pending count. -/
lemma length_filter_append_singleton_ne (l : List PendingReveal)
    (x : PendingReveal) (e : Nat) (h : x.target ≠ e) :
    ((l ++ [x]).filter (fun q => q.target == e)).length =
      (l.filter (fun q => q.target == e)).length := by
  rw [List.filter_append, List.length_append]
  simp [beq_false_of_ne h]

/-- A batch entry for a different element preserves permanent-hiddenness
and the notification count. -/
lemma handleEntry_hidden (s : SRState) (p : Nat × Bool) (e : Nat)
    (k : AnimKind) (h : hiddenAt e k s) (hne : p.1 ≠ e) :
    hiddenAt e k (handleEntry s p) ∧
    notifCount (handleEntry s p) e = notifCount s e := by
  obtain ⟨hobs, hpend, helems, hstyle⟩ := h
  rcases handleEntry_shape s p with hs | ⟨ed, hl, hrev, hvis, hs⟩ |
    ⟨ed, hl, hnonce, hs⟩
  · rw [hs]; exact ⟨⟨hobs, hpend, helems, hstyle⟩, rfl⟩
  · rw [hs]
    refine ⟨⟨?_, ?_, helems, hstyle⟩, rfl⟩
    · intro hmem
      by_cases ho : s.options.once = true
      · rw [if_pos ho] at hmem
        exact hobs (List.mem_of_mem_erase hmem)
      · rw [if_neg ho] at hmem
        exact hobs hmem
    · exact (length_filter_append_singleton_ne s.pending _ e hne).trans hpend
  · rw [hs]
    refine ⟨⟨hobs, hpend, ?_, ?_⟩, rfl⟩
    · intro kv hkv hkve
      rcases mem_assocSet _ _ _ kv hkv with h1 | h1
      · exact helems kv h1 hkve
      · exfalso; rw [h1] at hkve; exact hne hkve
    · show ((assocSet s.styles p.1
        (StylePhase.initialSet ed.kind)).lookup e).getD .authored =
          StylePhase.initialSet k
      rw [lookup_assocSet_ne _ _ _ _ hne]
      exact hstyle

/-- A batch not mentioning the element preserves permanent-hiddenness. -/
lemma handleBatch_hidden (entries : List (Nat × Bool)) (s : SRState) (e : Nat)
    (k : AnimKind) (h : hiddenAt e k s) (hne : ∀ p ∈ entries, p.1 ≠ e) :
    hiddenAt e k (handleIntersection s entries) ∧
    notifCount (handleIntersection s entries) e = notifCount s e := by
  induction entries generalizing s with
  | nil => exact ⟨h, rfl⟩
  | cons p rest ih =>
    have h1 := handleEntry_hidden s p e k h (hne p (List.mem_cons_self p rest))
    have h2 := ih (handleEntry s p) h1.1
      (fun q hq => hne q (List.mem_cons_of_mem _ hq))
    exact ⟨h2.1, h2.2.trans h1.2⟩

/-- Firing any pending timeout preserves permanent-hiddenness (none can
target the hidden element). -/
lemma fireTimeout_hidden (s : SRState) (i : Nat) (e : Nat) (k : AnimKind)
    (h : hiddenAt e k s) :
    hiddenAt e k (fireTimeout s i) ∧
    notifCount (fireTimeout s i) e = notifCount s e := by
  obtain ⟨hobs, hpend, helems, hstyle⟩ := h
  unfold fireTimeout
  cases hp : s.pending.get? i with
  | none => exact ⟨⟨hobs, hpend, helems, hstyle⟩, rfl⟩
  | some p =>
    have hne : p.target ≠ e := by
      intro heq
      have hmf : p ∈ s.pending.filter (fun q => q.target == e) :=
        List.mem_filter.mpr ⟨List.get?_mem hp, by rw [heq]; simp⟩
      have hpos : 0 < pendingCount s e :=
        List.length_pos.mpr (List.ne_nil_of_mem hmf)
      omega
    refine ⟨⟨hobs, ?_, ?_, ?_⟩, ?_⟩
    · have hsub : List.Sublist
          ((s.pending.eraseIdx i).filter (fun q => q.target == e))
          (s.pending.filter (fun q => q.target == e)) :=
        (List.eraseIdx_sublist s.pending i).filter _
      have hle := hsub.length_le
      have hpend2 : (s.pending.filter (fun q => q.target == e)).length = 0 :=
        hpend
      show ((s.pending.eraseIdx i).filter (fun q => q.target == e)).length = 0
      omega
    · intro kv hkv hkve
      revert hkv
      show kv ∈ (match s.elements.lookup p.target with
        | none => s.elements
        | some ed => assocSet s.elements p.target { ed with revealed := true }) →
        _
      cases hl : s.elements.lookup p.target with
      | none => intro hkv; exact helems kv hkv hkve
      | some ed =>
        intro hkv
        rcases mem_assocSet _ _ _ kv hkv with h1 | h1
        · exact helems kv h1 hkve
        · exfalso; rw [h1] at hkve; exact hne hkve
    · show ((assocSet s.styles p.target
        (StylePhase.animateSet p.data.kind)).lookup e).getD .authored =
          StylePhase.initialSet k
      rw [lookup_assocSet_ne _ _ _ _ hne]
      exact hstyle
    · have hn := notifCount_revealElem
        { s with pending := s.pending.eraseIdx i } p e
      rw [if_neg hne, Nat.add_zero] at hn
      rw [hn]
      exact rfl

/-- The `reset()` fold keeps a permanently hidden element hidden. -/
lemma hideFold_hidden (l : List (Nat × ElemData)) (s : SRState) (e : Nat)
    (k : AnimKind) (hl : ∀ kv ∈ l, kv.1 = e → kv.2.kind = k)
    (h : hiddenAt e k s) :
    hiddenAt e k (l.foldl (fun acc kv => hideElem acc kv.1 kv.2) s) := by
  induction l generalizing s with
  | nil => exact h
  | cons a t ih =>
    have hstep : hiddenAt e k (hideElem s a.1 a.2) := by
      obtain ⟨hobs, hpend, helems, hstyle⟩ := h
      by_cases hae : a.1 = e
      · refine ⟨hobs, hpend, ?_, ?_⟩
        · intro kv hkv hkve
          rcases mem_assocSet _ _ _ kv hkv with h1 | h1
          · exact helems kv h1 hkve
          · rw [h1]
            exact ⟨rfl, hl a (List.mem_cons_self a t) hae⟩
        · show ((assocSet s.styles a.1
            (StylePhase.initialSet a.2.kind)).lookup e).getD .authored =
              StylePhase.initialSet k
          rw [hae, lookup_assocSet_self,
            hl a (List.mem_cons_self a t) hae]
          rfl
      · refine ⟨hobs, hpend, ?_, ?_⟩
        · intro kv hkv hkve
          rcases mem_assocSet _ _ _ kv hkv with h1 | h1
          · exact helems kv h1 hkve
          · exfalso; rw [h1] at hkve; exact hae hkve
        · show ((assocSet s.styles a.1
            (StylePhase.initialSet a.2.kind)).lookup e).getD .authored =
              StylePhase.initialSet k
          rw [lookup_assocSet_ne _ _ _ _ hae]
          exact hstyle
    exact ih (hideElem s a.1 a.2)
      (fun kv hkv => hl kv (List.mem_cons_of_mem _ hkv)) hstep

/-- `reset()` preserves permanent-hiddenness and the notification
count. -/
lemma resetAll_hidden (s : SRState) (e : Nat) (k : AnimKind)
    (h : hiddenAt e k s) :
    hiddenAt e k (resetAll s) ∧ notifCount (resetAll s) e = notifCount s e := by
  refine ⟨hideFold_hidden s.elements s e k
    (fun kv hkv hkve => (h.2.2.1 kv hkv hkve).2) h, ?_⟩
  unfold notifCount resetAll
  rw [(hideFold_proj s.elements s).2.2.1]

/-- Every detector-faithful host event preserves permanent-hiddenness
and the notification count. -/
lemma srStep_hidden (s : SRState) (ev : SREvent) (e : Nat) (k : AnimKind)
    (h : hiddenAt e k s) (hv : validEventB s ev = true) :
    hiddenAt e k (srStep s ev) ∧ notifCount (srStep s ev) e = notifCount s e := by
  cases ev with
  | deliver entries =>
    obtain ⟨_, h2⟩ := Bool.and_eq_true_iff.mp hv
    refine handleBatch_hidden entries s e k h ?_
    intro p hp heq
    have hpo : p.1 ∈ s.observed :=
      of_decide_eq_true (List.all_eq_true.mp h2 p hp)
    rw [heq] at hpo
    exact h.1 hpo
  | fire i => exact fireTimeout_hidden s i e k h
  | resetCall => exact resetAll_hidden s e k h

/-- Detector-faithful traces preserve permanent-hiddenness and the
notification count. -/
lemma srRun_hidden (s : SRState) (evs : List SREvent) (e : Nat) (k : AnimKind)
    (h : hiddenAt e k s) (hv : validTraceB s evs = true) :
    hiddenAt e k (srRun s evs) ∧ notifCount (srRun s evs) e = notifCount s e := by
  induction evs generalizing s with
  | nil => exact ⟨h, rfl⟩
  | cons ev rest ih =>
    obtain ⟨h1, h2⟩ := Bool.and_eq_true_iff.mp hv
    have hstep := srStep_hidden s ev e k h h1
    have hrest := ih (srStep s ev) hstep.1 h2
    exact ⟨hrest.1, hrest.2.trans hstep.2⟩

/-- A permanently hidden element's `revealed` flag reads false. -/
lemma revealedFlag_of_hiddenAt (s : SRState) (e : Nat) (k : AnimKind)
    (h : hiddenAt e k s) : revealedFlag s e = false := by
  unfold revealedFlag
  cases hl : s.elements.lookup e with
  | none => rfl
  | some ed => exact (h.2.2.1 (e, ed) (lookup_mem _ _ _ hl) rfl).1

/-- C10. Under `once=true`, element 0 is already unobserved when its
scheduled reveal fires; after reveal-then-`reset()` it is back in the
initial (hidden) style-set with `revealed=false`, still unobserved — and
along every further detector-faithful trace it stays hidden, unrevealed,
unobserved, and receives no further `revealed` notification (the count
stays at the single one already dispatched). -/
theorem c10_reveal_reset_permanent :
    0 ∉ (srRun liveState [SREvent.deliver [(0, true)]]).observed ∧
    revealedFlag revealResetState 0 = false ∧
    styleOf revealResetState 0 = StylePhase.initialSet AnimKind.fadeUp ∧
    0 ∉ revealResetState.observed ∧
    notifCount revealResetState 0 = 1 ∧
    (∀ evs, validTraceB revealResetState evs = true →
      revealedFlag (srRun revealResetState evs) 0 = false ∧
      styleOf (srRun revealResetState evs) 0 =
        StylePhase.initialSet AnimKind.fadeUp ∧
      0 ∉ (srRun revealResetState evs).observed ∧
      notifCount (srRun revealResetState evs) 0 = 1) := by
  have h0 : hiddenAt 0 AnimKind.fadeUp revealResetState := by
    refine ⟨by decide, by decide, by decide, by decide⟩
  refine ⟨by decide, by decide, by decide, by decide, by decide, ?_⟩
  intro evs hv
  have hrun := srRun_hidden revealResetState evs 0 AnimKind.fadeUp h0 hv
  refine ⟨revealedFlag_of_hiddenAt _ _ _ hrun.1, hrun.1.2.2.2, hrun.1.1, ?_⟩
  rw [hrun.2]
  decide

/-- C10 witness: the trace-quantified part applied to a concrete valid
trace (an empty batch and a timeout fire). -/
theorem c10_reveal_reset_permanent_witness :
    validTraceB revealResetState [SREvent.deliver [], SREvent.fire 0] = true ∧
    revealedFlag (srRun revealResetState
      [SREvent.deliver [], SREvent.fire 0]) 0 = false :=
  ⟨by decide, (c10_reveal_reset_permanent.2.2.2.2.2
    [SREvent.deliver [], SREvent.fire 0] (by decide)).1⟩
